import Mathlib

/-!
# cid-filler: a shallow embedding of `cid-filler.go`

Go strings are modelled as Lean `String`s, i.e. sequences of Unicode code
points (the clipboard text and the environment values are taken to be valid
UTF-8 text).  The operating-system services the program talks to (process
environment, `.env` loader, clipboard, SQLite driver) are parameters of the
model, collected in `World`.
-/

namespace CidFiller

/-! ## `strings` primitives used by the program -/

/-- Go `unicode.IsSpace`: the Latin-1 spaces `\t \n \v \f \r ' '`, U+0085, U+00A0
and the other code points with the `White_Space` property. -/
def isSpace (c : Char) : Bool :=
  let r := c.toNat
  (0x09 ≤ r && r ≤ 0x0D) || r = 0x20 || r = 0x85 || r = 0xA0 || r = 0x1680 ||
  (0x2000 ≤ r && r ≤ 0x200A) || r = 0x2028 || r = 0x2029 || r = 0x202F ||
  r = 0x205F || r = 0x3000

/-- Go `strings.TrimSpace` on the code points: the leading run of spaces is cut
first, then the trailing run. -/
def trimChars (cs : List Char) : List Char :=
  (cs.dropWhile isSpace).rdropWhile isSpace

/-- Go `strings.TrimSpace`. -/
def TrimSpace (s : String) : String :=
  ⟨trimChars s.data⟩

/-- Scan for `strings.Split(s, "\n")`: the piece in progress and the pieces
after it. -/
def splitScan : List Char → List Char × List (List Char)
  | [] => ([], [])
  | c :: cs =>
    let r := splitScan cs
    if c = '\n' then ([], r.1 :: r.2) else (c :: r.1, r.2)

/-- Go `strings.Split(s, "\n")` on the code points: one piece more than there
are separators, the empty text giving the single empty piece. -/
def splitChars (cs : List Char) : List (List Char) :=
  (splitScan cs).1 :: (splitScan cs).2

/-- Go `strings.Split(s, "\n")`. -/
def Split (s : String) : List String :=
  (splitChars s.data).map String.mk

/-- Go `strings.Join(elems, "\n")`. -/
def Join (elems : List String) : String :=
  String.intercalate "\n" elems

/-! ## Parsing the clipboard text (`main`, lines 109-116) -/

/-- The loop of `main` that builds `inputCodes` from the clipboard text. -/
def parseCodes (clipboardContent : String) : List String :=
  let lines := Split clipboardContent
  lines.foldl
    (fun inputCodes line =>
      let trimmed := TrimSpace line
      if trimmed ≠ "" then inputCodes ++ [trimmed] else inputCodes)
    []

/-- A line is blank when it consists of white space only (the empty line
included): the wording of the specification. -/
def isBlank (line : String) : Bool :=
  line.data.all isSpace

/-- The specification's reading of the code list: the non-blank lines, each
trimmed, in their original order. -/
def nonBlankTrimmedLines (s : String) : List String :=
  ((Split s).filter (fun line => !isBlank line)).map TrimSpace

/-! ## Configuration (`Config`, `loadConfig`) -/

/-- The `Config` record of the program. -/
structure Config where
  DBPath : String
  TableName : String
  InputColumn : String
  OutputColumn : String
deriving DecidableEq, Repr

/-- The process environment as `os.Getenv` sees it: an unset variable reads as
the empty string. -/
abbrev Env := String → String

/-- An error of `db.QueryRow(...).Scan(...)`.  `sql.ErrNoRows` is a sentinel
value compared by identity; every other error is `other`. -/
inductive DbErr where
  | ErrNoRows
  | other (msg : String)
deriving DecidableEq, Repr

/-- The text of an error, as `%v` prints it. -/
def DbErr.Error : DbErr → String
  | .ErrNoRows => "sql: no rows in result set"
  | .other msg => msg

/-- An open database handle: `QueryRow query arg` is the outcome of
`db.QueryRow(query, arg).Scan(&result)`, the scanned value or the error. -/
structure DB where
  QueryRow : String → String → Except DbErr String

/-- What the program's surroundings supply. -/
structure World where
  /-- The process environment at start-up. -/
  environ : Env
  /-- The effect of `godotenv.Load()`: the environment afterwards and the error
  it returned, if any. -/
  godotenvLoad : Env → Env × Option String
  /-- The error of `clipboard.Init()`, if any. -/
  clipboardInit : Option String
  /-- The text content of the clipboard, read by `clipboard.Read(clipboard.FmtText)`. -/
  clipboard : String
  /-- The outcome of `sql.Open("sqlite3", path)`. -/
  sqlOpen : String → Except String DB

/-- The function `loadConfig`: the returned pair `(*Config, error)` and the
warnings handed to `log.Printf`. -/
def loadConfig (w : World) : Except String Config × List String :=
  let loaded := w.godotenvLoad w.environ
  let warnings :=
    match loaded.2 with
    | some err => ["⚠️ WARNING: ERROR LOADING .ENV file: " ++ err]
    | none => []
  let Getenv := loaded.1
  let config : Config :=
    { DBPath := Getenv "DB_PATH"
      TableName := Getenv "TABLE_NAME"
      InputColumn := Getenv "INPUT_COLUMN"
      OutputColumn := Getenv "OUTPUT_COLUMN" }
  if config.DBPath = "" then (.error "DB_PATH is required in .env", warnings)
  else if config.TableName = "" then (.error "TABLE_NAME is required in .env", warnings)
  else if config.InputColumn = "" then (.error "INPUT_COLUMN is required in .env", warnings)
  else if config.OutputColumn = "" then (.error "OUTPUT_COLUMN is required in .env", warnings)
  else (.ok config, warnings)

/-- The four required settings, in validation order. -/
def settingNames : List String :=
  ["DB_PATH", "TABLE_NAME", "INPUT_COLUMN", "OUTPUT_COLUMN"]

/-- The first setting, in validation order, that reads as empty. -/
def firstMissing (Getenv : Env) : Option String :=
  settingNames.find? (fun name => Getenv name = "")

/-- Whether the text `name` occurs in `msg`. -/
def mentions (msg name : String) : Prop :=
  name.data <:+: msg.data

/-! ## Lookup (`lookupCodes`) -/

/-- What the program does to the database and the clipboard, in order. -/
inductive Event where
  | Open (driverName dataSourceName : String)
  | QueryRow (query arg : String)
  | Close
  | ClipboardWrite (text : String)
deriving DecidableEq, Repr

/-- The query text built by `fmt.Sprintf("SELECT %s FROM %s WHERE %s = ?", ...)`. -/
def queryText (config : Config) : String :=
  "SELECT " ++ config.OutputColumn ++ " FROM " ++ config.TableName ++
    " WHERE " ++ config.InputColumn ++ " = ?"

/-- The `for` loop of `lookupCodes`: `results` is the slice accumulated so far;
the outcome is the returned pair `([]string, error)` and the queries issued. -/
def lookupLoop (db : DB) (query : String) :
    List String → List String → Except String (List String) × List Event
  | [], results => (.ok results, [])
  | code :: rest, results =>
    let code := TrimSpace code
    match db.QueryRow query code with
    | .error err =>
      if err ≠ DbErr.ErrNoRows then
        let r := lookupLoop db query rest (results ++ ["Not found"])
        (r.1, Event.QueryRow query code :: r.2)
      else
        (.error ("database query error: " ++ err.Error), [Event.QueryRow query code])
    | .ok result =>
      let r := lookupLoop db query rest (results ++ [result])
      (r.1, Event.QueryRow query code :: r.2)

/-- The function `lookupCodes`: the returned pair and the database events. -/
def lookupCodes (w : World) (inputCodes : List String) (config : Config) :
    Except String (List String) × List Event :=
  match w.sqlOpen config.DBPath with
  | .error err =>
    (.error ("failed to open database: " ++ err), [Event.Open "sqlite3" config.DBPath])
  | .ok db =>
    let query := queryText config
    let r := lookupLoop db query inputCodes []
    (r.1, Event.Open "sqlite3" config.DBPath :: r.2 ++ [Event.Close])

/-! ## The orchestrator (`main`) -/

/-- The point at which `main` ends. -/
inductive Outcome where
  /-- `log.Fatalf("❌ Configuration error: %v", err)`. -/
  | configFatal (err : String)
  /-- `log.Fatalf("Failed to initialize clipboard: %v", err)`. -/
  | clipboardFatal (err : String)
  /-- "No content found in clipboard", line 106. -/
  | noContent
  /-- "No input codes found in clipboard", line 118. -/
  | noCodes
  /-- "CHECK YOUR CLIPBOARD ...", line 125. -/
  | lookupFailed (err : String)
  /-- "Results have been copied to clipboard", line 134. -/
  | copied (result : String)
  /-- "No results found or an error occured", line 136. -/
  | noResults
deriving DecidableEq, Repr

/-- A finished run of `main`. -/
structure Run where
  outcome : Outcome
  /-- The clipboard content when the process ends. -/
  clipboard : String
  /-- The database and clipboard-write events, in order. -/
  trace : List Event
  /-- The code list handed to `lookupCodes`, when it was called. -/
  lookedUp : Option (List String)
deriving DecidableEq, Repr

/-- The function `main` (the banner and status lines are left out). -/
def main (w : World) : Run :=
  match (loadConfig w).1 with
  | .error err => ⟨.configFatal err, w.clipboard, [], none⟩
  | .ok config =>
    match w.clipboardInit with
    | some err => ⟨.clipboardFatal err, w.clipboard, [], none⟩
    | none =>
      let clipboardContent := w.clipboard
      if clipboardContent = "" then ⟨.noContent, w.clipboard, [], none⟩
      else
        let inputCodes := parseCodes clipboardContent
        if inputCodes.length = 0 then ⟨.noCodes, w.clipboard, [], none⟩
        else
          let r := lookupCodes w inputCodes config
          match r.1 with
          | .error err => ⟨.lookupFailed err, w.clipboard, r.2, some inputCodes⟩
          | .ok results =>
            if results.length > 0 then
              let result := Join results
              ⟨.copied result, result, r.2 ++ [Event.ClipboardWrite result], some inputCodes⟩
            else ⟨.noResults, w.clipboard, r.2, some inputCodes⟩

/-- The entry a code contributes to the result slice when the batch is not
aborted: the scanned value, or the sentinel when the query failed. -/
def resultFor (db : DB) (query code : String) : String :=
  match db.QueryRow query (TrimSpace code) with
  | .ok result => result
  | .error _ => "Not found"

/-! ## A concrete world: the scenario of the specification -/

/-- A table `codes` with the rows (101, Alpha) and (202, Beta); the code 303
makes the driver fail. -/
def demoDB : DB where
  QueryRow := fun query arg =>
    if query = "SELECT name FROM codes WHERE code = ?" then
      if arg = "101" then .ok "Alpha"
      else if arg = "202" then .ok "Beta"
      else if arg = "303" then .error (.other "database is locked")
      else .error .ErrNoRows
    else .error (.other "no such table")

/-- The environment of the scenario. -/
def demoEnv : Env := fun name =>
  if name = "DB_PATH" then "codes.db"
  else if name = "TABLE_NAME" then "codes"
  else if name = "INPUT_COLUMN" then "code"
  else if name = "OUTPUT_COLUMN" then "name"
  else ""

/-- The world of the scenario, the clipboard text left open; there is no
`.env` file. -/
def demoWorld (clipboard : String) : World where
  environ := demoEnv
  godotenvLoad := fun env => (env, some "open .env: no such file or directory")
  clipboardInit := none
  clipboard := clipboard
  sqlOpen := fun _ => .ok demoDB

/-- The configuration of the scenario. -/
def demoConfig : Config :=
  { DBPath := "codes.db", TableName := "codes", InputColumn := "code", OutputColumn := "name" }

/-- A world in which DB_PATH is set and TABLE_NAME and OUTPUT_COLUMN are not. -/
def noTableWorld : World where
  environ := fun name =>
    if name = "DB_PATH" then "codes.db" else if name = "INPUT_COLUMN" then "code" else ""
  godotenvLoad := fun env => (env, none)
  clipboardInit := none
  clipboard := "101"
  sqlOpen := fun _ => .ok demoDB

/-! ## Facts about the string primitives -/

theorem trimChars_eq_nil_iff (cs : List Char) :
    trimChars cs = [] ↔ ∀ c ∈ cs, isSpace c = true := by
  unfold trimChars
  rw [List.rdropWhile_eq_nil_iff]
  constructor
  · intro h
    by_contra hne
    have hd : cs.dropWhile isSpace ≠ [] := by
      rw [Ne, List.dropWhile_eq_nil_iff]
      exact hne
    have h1 := List.head_dropWhile_not isSpace cs hd
    have h2 := h _ (List.head_mem hd)
    simp [h2] at h1
  · intro h x hx
    exact h x ((List.dropWhile_sublist isSpace).subset hx)

theorem trimChars_decompose (cs : List Char) :
    ∃ pre post, cs = pre ++ trimChars cs ++ post ∧
      (∀ c ∈ pre, isSpace c = true) ∧ (∀ c ∈ post, isSpace c = true) := by
  refine ⟨cs.takeWhile isSpace,
    ((cs.dropWhile isSpace).reverse.takeWhile isSpace).reverse, ?_, ?_, ?_⟩
  · have h1 : cs.takeWhile isSpace ++ cs.dropWhile isSpace = cs :=
      List.takeWhile_append_dropWhile isSpace cs
    have h2 : (cs.dropWhile isSpace).reverse.takeWhile isSpace ++
        (cs.dropWhile isSpace).reverse.dropWhile isSpace = (cs.dropWhile isSpace).reverse :=
      List.takeWhile_append_dropWhile isSpace _
    have h3 : trimChars cs ++ ((cs.dropWhile isSpace).reverse.takeWhile isSpace).reverse
        = cs.dropWhile isSpace := by
      have h4 := congrArg List.reverse h2
      rw [List.reverse_append, List.reverse_reverse] at h4
      exact h4
    rw [List.append_assoc, h3, h1]
  · intro c hc
    exact List.mem_takeWhile_imp hc
  · intro c hc
    exact List.mem_takeWhile_imp (List.mem_reverse.mp hc)

theorem trimChars_sublist (cs : List Char) : List.Sublist (trimChars cs) cs :=
  ((List.rdropWhile_prefix isSpace (cs.dropWhile isSpace)).sublist).trans
    (List.dropWhile_sublist isSpace)

theorem trimChars_head_not_space (cs : List Char) (h : trimChars cs ≠ []) :
    isSpace ((trimChars cs).head h) = false := by
  have hd : cs.dropWhile isSpace ≠ [] := by
    intro h0
    apply h
    simp [trimChars, h0]
  have h1 := List.head_dropWhile_not isSpace cs hd
  obtain ⟨t, ht⟩ := List.rdropWhile_prefix isSpace (cs.dropWhile isSpace)
  have h2 : (trimChars cs).head h = (cs.dropWhile isSpace).head hd := by
    have e : cs.dropWhile isSpace = trimChars cs ++ t := ht.symm
    simp only [e]
    rw [List.head_append_of_ne_nil]
  rw [h2]
  exact h1

theorem trimChars_getLast_not_space (cs : List Char) (h : trimChars cs ≠ []) :
    isSpace ((trimChars cs).getLast h) = false := by
  have := List.rdropWhile_last_not isSpace (cs.dropWhile isSpace) h
  simpa [trimChars] using this

theorem splitChars_cons (c : Char) (cs : List Char) :
    splitChars (c :: cs) =
      if c = '\n' then [] :: splitChars cs
      else (c :: (splitScan cs).1) :: (splitScan cs).2 := by
  by_cases h : c = '\n' <;> simp [splitChars, splitScan, h]

theorem intercalate_splitChars (cs : List Char) :
    ['\n'].intercalate (splitChars cs) = cs := by
  induction cs with
  | nil => rfl
  | cons c cs ih =>
    rw [splitChars_cons]
    by_cases h : c = '\n'
    · rw [if_pos h]
      have e : ['\n'].intercalate ([] :: splitChars cs)
          = '\n' :: ['\n'].intercalate (splitChars cs) := by
        simp [List.intercalate, splitChars, List.intersperse]
      rw [e, ih, h]
    · rw [if_neg h]
      have e : ['\n'].intercalate ((c :: (splitScan cs).1) :: (splitScan cs).2)
          = c :: ['\n'].intercalate (splitChars cs) := by
        cases h2 : (splitScan cs).2 <;>
          simp [List.intercalate, splitChars, List.intersperse, h2]
      rw [e, ih]

theorem splitChars_no_newline (cs : List Char) :
    ∀ piece ∈ splitChars cs, '\n' ∉ piece := by
  induction cs with
  | nil => simp [splitChars, splitScan]
  | cons c cs ih =>
    rw [splitChars_cons]
    by_cases h : c = '\n'
    · rw [if_pos h]
      intro piece hp
      rcases List.mem_cons.mp hp with rfl | hp
      · simp
      · exact ih piece hp
    · rw [if_neg h]
      intro piece hp
      rcases List.mem_cons.mp hp with rfl | hp
      · have := ih (splitScan cs).1 (by simp [splitChars])
        simp only [List.mem_cons, not_or]
        exact ⟨fun e => h e.symm, this⟩
      · exact ih piece (by simp [splitChars, hp])

theorem intercalate_go_data (sep : String) (l : List String) (acc : String) :
    (String.intercalate.go acc sep l).data
      = acc.data ++ (l.map (fun a => sep.data ++ a.data)).flatten := by
  induction l generalizing acc with
  | nil => simp [String.intercalate.go]
  | cons a l ih => simp [String.intercalate.go, ih, String.data_append]

theorem Join_data (l : List String) :
    (Join l).data = ['\n'].intercalate (l.map String.data) := by
  cases l with
  | nil => rfl
  | cons a l =>
    have h : ∀ (m : List String) (x : List Char),
        ['\n'].intercalate (x :: m.map String.data)
          = x ++ (m.map (fun a => "\n".data ++ a.data)).flatten := by
      intro m
      induction m with
      | nil => intro x; simp [List.intercalate, List.intersperse]
      | cons b m ihm =>
        intro x
        have := ihm b.data
        simp only [List.intercalate, List.map_cons, List.intersperse, List.flatten_cons] at this ⊢
        rw [this]
        simp
    simp only [Join, String.intercalate, intercalate_go_data, List.map_cons]
    rw [h]

theorem TrimSpace_eq_empty_iff (line : String) :
    TrimSpace line = "" ↔ isBlank line = true := by
  have h := trimChars_eq_nil_iff line.data
  constructor
  · intro e
    have e2 : trimChars line.data = [] := by
      have := congrArg String.data e
      simpa [TrimSpace] using this
    simpa [isBlank] using h.mp e2
  · intro e
    have e2 : trimChars line.data = [] := h.mpr (by simpa [isBlank] using e)
    simp [TrimSpace, e2]

theorem parseLoop_eq (lines acc : List String) :
    lines.foldl
      (fun inputCodes line =>
        let trimmed := TrimSpace line
        if trimmed ≠ "" then inputCodes ++ [trimmed] else inputCodes) acc
      = acc ++ (lines.filter (fun line => !isBlank line)).map TrimSpace := by
  induction lines generalizing acc with
  | nil => simp
  | cons l ls ih =>
    rw [List.foldl_cons, ih]
    by_cases hb : isBlank l = true
    · have := (TrimSpace_eq_empty_iff l).mpr hb
      simp [hb, this]
    · have hne : TrimSpace l ≠ "" := fun e => hb ((TrimSpace_eq_empty_iff l).mp e)
      simp [hb, hne]

theorem parseCodes_eq (s : String) : parseCodes s = nonBlankTrimmedLines s := by
  unfold parseCodes nonBlankTrimmedLines
  simpa using parseLoop_eq (Split s) []

/-! ## C1: the parsed code list -/

/-- C1: the pieces `Split` cuts the clipboard text into are its lines (joined by
newlines they give the text back, and none contains a newline); `TrimSpace`
removes from a line a run of white space at each end and nothing else; the code
list built by `main` is the list of the non-blank lines, each trimmed, in their
order; and every code is non-empty, contains no newline, and neither starts nor
ends with white space. -/
theorem parseCodes_spec (s : String) :
    Join (Split s) = s ∧
    (∀ line ∈ Split s, '\n' ∉ line.data) ∧
    (∀ line ∈ Split s, ∃ pre post, line.data = pre ++ (TrimSpace line).data ++ post ∧
      (∀ c ∈ pre, isSpace c = true) ∧ (∀ c ∈ post, isSpace c = true)) ∧
    parseCodes s = ((Split s).filter (fun line => !isBlank line)).map TrimSpace ∧
    ∀ code ∈ parseCodes s, code ≠ "" ∧ '\n' ∉ code.data ∧
      ∀ h : code.data ≠ [],
        isSpace (code.data.head h) = false ∧ isSpace (code.data.getLast h) = false := by
  have hno : ∀ line ∈ Split s, '\n' ∉ line.data := by
    intro line hl
    simp only [Split, List.mem_map] at hl
    obtain ⟨piece, hp, rfl⟩ := hl
    exact splitChars_no_newline s.data piece hp
  refine ⟨?_, hno, ?_, parseCodes_eq s, ?_⟩
  · apply String.ext
    rw [Join_data]
    have : (Split s).map String.data = splitChars s.data := by
      simp [Split, Function.comp_def]
    rw [this, intercalate_splitChars]
  · intro line _
    exact trimChars_decompose line.data
  · intro code hc
    rw [parseCodes_eq] at hc
    simp only [nonBlankTrimmedLines, List.mem_map, List.mem_filter] at hc
    obtain ⟨line, ⟨hl, hnb⟩, rfl⟩ := hc
    have hne : TrimSpace line ≠ "" := by
      intro e
      have := (TrimSpace_eq_empty_iff line).mp e
      simp [this] at hnb
    refine ⟨hne, ?_, ?_⟩
    · intro hmem
      exact hno line hl ((trimChars_sublist line.data).subset hmem)
    · intro h
      exact ⟨trimChars_head_not_space line.data h, trimChars_getLast_not_space line.data h⟩

/-! ## Facts about the lookup loop -/

theorem lookupLoop_all_answered (db : DB) (query : String) (codes results : List String)
    (h : ∀ code ∈ codes, db.QueryRow query (TrimSpace code) ≠ .error DbErr.ErrNoRows) :
    lookupLoop db query codes results =
      (.ok (results ++ codes.map (resultFor db query)),
        codes.map (fun code => Event.QueryRow query (TrimSpace code))) := by
  induction codes generalizing results with
  | nil => simp [lookupLoop]
  | cons c cs ih =>
    have hc := h c (List.mem_cons_self c cs)
    have hcs : ∀ code ∈ cs, db.QueryRow query (TrimSpace code) ≠ .error DbErr.ErrNoRows :=
      fun code hm => h code (List.mem_cons_of_mem c hm)
    unfold lookupLoop
    cases hq : db.QueryRow query (TrimSpace c) with
    | ok v => simp [ih _ hcs, resultFor, hq]
    | error e =>
      have hne : e ≠ DbErr.ErrNoRows := by
        intro he
        apply hc
        rw [hq, he]
      simp [ih _ hcs, resultFor, hq, hne]

theorem lookupLoop_first_unmatched (db : DB) (query : String)
    (before : List String) (code : String) (after results : List String)
    (hb : ∀ c ∈ before, db.QueryRow query (TrimSpace c) ≠ .error DbErr.ErrNoRows)
    (hc : db.QueryRow query (TrimSpace code) = .error DbErr.ErrNoRows) :
    lookupLoop db query (before ++ code :: after) results =
      (.error "database query error: sql: no rows in result set",
        (before ++ [code]).map (fun c => Event.QueryRow query (TrimSpace c))) := by
  induction before generalizing results with
  | nil =>
    simp only [List.nil_append]
    unfold lookupLoop
    simp only [hc]
    rfl
  | cons b bs ih =>
    have hb1 := hb b (List.mem_cons_self b bs)
    have hbs : ∀ c ∈ bs, db.QueryRow query (TrimSpace c) ≠ .error DbErr.ErrNoRows :=
      fun c hm => hb c (List.mem_cons_of_mem b hm)
    simp only [List.cons_append]
    unfold lookupLoop
    cases hq : db.QueryRow query (TrimSpace b) with
    | ok v => simp [ih _ hbs, hq]
    | error e =>
      have hne : e ≠ DbErr.ErrNoRows := by
        intro he
        apply hb1
        rw [hq, he]
      simp [ih _ hbs, hne, hq]

theorem exists_first_unmatched (db : DB) (query : String) (codes : List String)
    (h : ∃ code ∈ codes, db.QueryRow query (TrimSpace code) = .error DbErr.ErrNoRows) :
    ∃ before code after, codes = before ++ code :: after ∧
      (∀ c ∈ before, db.QueryRow query (TrimSpace c) ≠ .error DbErr.ErrNoRows) ∧
      db.QueryRow query (TrimSpace code) = .error DbErr.ErrNoRows := by
  induction codes with
  | nil => simp at h
  | cons c cs ih =>
    by_cases hc : db.QueryRow query (TrimSpace c) = .error DbErr.ErrNoRows
    · exact ⟨[], c, cs, rfl, by simp, hc⟩
    · obtain ⟨x, hx, hxe⟩ := h
      have hx2 : x ∈ cs := by
        rcases List.mem_cons.mp hx with rfl | hm
        · exact absurd hxe hc
        · exact hm
      obtain ⟨before, code, after, he, hb, hq⟩ := ih ⟨x, hx2, hxe⟩
      refine ⟨c :: before, code, after, by simp [he], ?_, hq⟩
      intro y hy
      rcases List.mem_cons.mp hy with rfl | hm
      · exact hc
      · exact hb y hm

theorem queryRow_mem_framed (path : String) (l : List Event) (query arg : String)
    (hm : Event.QueryRow query arg ∈ Event.Open "sqlite3" path :: l ++ [Event.Close]) :
    Event.QueryRow query arg ∈ l := by
  simpa using hm

theorem lookupCodes_trace_cases (w : World) (config : Config) (db : DB)
    (hopen : w.sqlOpen config.DBPath = .ok db) (inputCodes : List String) :
    (lookupCodes w inputCodes config =
        (.ok (inputCodes.map (resultFor db (queryText config))),
          Event.Open "sqlite3" config.DBPath ::
            inputCodes.map (fun c => Event.QueryRow (queryText config) (TrimSpace c))
            ++ [Event.Close]) ∧
      ∀ code ∈ inputCodes,
        db.QueryRow (queryText config) (TrimSpace code) ≠ .error DbErr.ErrNoRows) ∨
    ∃ before code after, inputCodes = before ++ code :: after ∧
      (∀ c ∈ before,
        db.QueryRow (queryText config) (TrimSpace c) ≠ .error DbErr.ErrNoRows) ∧
      db.QueryRow (queryText config) (TrimSpace code) = .error DbErr.ErrNoRows ∧
      lookupCodes w inputCodes config =
        (.error "database query error: sql: no rows in result set",
          Event.Open "sqlite3" config.DBPath ::
            (before ++ [code]).map (fun c => Event.QueryRow (queryText config) (TrimSpace c))
            ++ [Event.Close]) := by
  by_cases h : ∃ code ∈ inputCodes,
      db.QueryRow (queryText config) (TrimSpace code) = .error DbErr.ErrNoRows
  · right
    obtain ⟨before, code, after, he, hb, hc⟩ := exists_first_unmatched db _ inputCodes h
    refine ⟨before, code, after, he, hb, hc, ?_⟩
    simp only [lookupCodes, hopen, he]
    rw [lookupLoop_first_unmatched db _ before code after [] hb hc]
  · left
    have hall : ∀ code ∈ inputCodes,
        db.QueryRow (queryText config) (TrimSpace code) ≠ .error DbErr.ErrNoRows :=
      fun code hm he => h ⟨code, hm, he⟩
    refine ⟨?_, hall⟩
    simp only [lookupCodes, hopen]
    rw [lookupLoop_all_answered db _ inputCodes [] hall]
    simp

theorem lookupCodes_ok_eq (w : World) (config : Config) (cs rs : List String)
    (h : (lookupCodes w cs config).1 = .ok rs) :
    ∃ db, w.sqlOpen config.DBPath = .ok db ∧
      rs = cs.map (resultFor db (queryText config)) := by
  cases hopen : w.sqlOpen config.DBPath with
  | error err => simp [lookupCodes, hopen] at h
  | ok db =>
    refine ⟨db, rfl, ?_⟩
    rcases lookupCodes_trace_cases w config db hopen cs with ⟨heq, _⟩ | hex
    · rw [heq] at h
      injection h with h
      exact h.symm
    · obtain ⟨before, code, after, _, _, _, heq⟩ := hex
      rw [heq] at h
      cases h

theorem lookupCodes_no_clipboardWrite (w : World) (config : Config) (cs : List String)
    (text : String) : Event.ClipboardWrite text ∉ (lookupCodes w cs config).2 := by
  cases hopen : w.sqlOpen config.DBPath with
  | error err => simp [lookupCodes, hopen]
  | ok db =>
    rcases lookupCodes_trace_cases w config db hopen cs with ⟨heq, _⟩ | hex
    · rw [heq]
      simp
    · obtain ⟨before, code, after, _, _, _, heq⟩ := hex
      rw [heq]
      simp

theorem main_after_startup (w : World) (config : Config)
    (hcfg : (loadConfig w).1 = .ok config) (hinit : w.clipboardInit = none) :
    main w =
      if w.clipboard = "" then ⟨.noContent, w.clipboard, [], none⟩
      else if (parseCodes w.clipboard).length = 0 then ⟨.noCodes, w.clipboard, [], none⟩
      else
        match (lookupCodes w (parseCodes w.clipboard) config).1 with
        | .error err =>
          ⟨.lookupFailed err, w.clipboard, (lookupCodes w (parseCodes w.clipboard) config).2,
            some (parseCodes w.clipboard)⟩
        | .ok results =>
          if results.length > 0 then
            ⟨.copied (Join results), Join results,
              (lookupCodes w (parseCodes w.clipboard) config).2
                ++ [Event.ClipboardWrite (Join results)],
              some (parseCodes w.clipboard)⟩
          else
            ⟨.noResults, w.clipboard, (lookupCodes w (parseCodes w.clipboard) config).2,
              some (parseCodes w.clipboard)⟩ := by
  simp only [main, hcfg, hinit]

theorem main_lookedUp (w : World) (cs : List String) (h : (main w).lookedUp = some cs) :
    ∃ config, (loadConfig w).1 = .ok config ∧ w.clipboardInit = none ∧
      w.clipboard ≠ "" ∧ cs = parseCodes w.clipboard ∧ cs ≠ [] := by
  cases hcfg : (loadConfig w).1 with
  | error err => simp [main, hcfg] at h
  | ok config =>
    cases hinit : w.clipboardInit with
    | some err => simp [main, hcfg, hinit] at h
    | none =>
      rw [main_after_startup w config hcfg hinit] at h
      by_cases h1 : w.clipboard = ""
      · simp [h1] at h
      · by_cases h2 : (parseCodes w.clipboard).length = 0
        · simp [h1, h2] at h
        · have hcs : cs = parseCodes w.clipboard := by
            rw [if_neg h1, if_neg h2] at h
            split at h
            · simpa using h.symm
            · split at h <;> simpa using h.symm
          refine ⟨config, rfl, rfl, h1, hcs, ?_⟩
          rw [hcs]
          intro h0
          exact h2 (by rw [h0]; rfl)

/-! ## C2, C3, C4, C9: the lookup -/

/-- C2: with the connection open, `lookupCodes` returns an error exactly when
the query for some code (trimmed) yields `sql.ErrNoRows`; then the returned pair
is the error alone, with no result slice, and the database saw the queries for
the codes up to and including the first such code and none after it. -/
theorem lookupCodes_error_iff (w : World) (config : Config) (db : DB)
    (hopen : w.sqlOpen config.DBPath = .ok db) (inputCodes : List String) :
    ((∃ err, (lookupCodes w inputCodes config).1 = .error err) ↔
      ∃ code ∈ inputCodes,
        db.QueryRow (queryText config) (TrimSpace code) = .error DbErr.ErrNoRows) ∧
    ((∃ code ∈ inputCodes,
        db.QueryRow (queryText config) (TrimSpace code) = .error DbErr.ErrNoRows) →
      ∃ before code after, inputCodes = before ++ code :: after ∧
        (∀ c ∈ before,
          db.QueryRow (queryText config) (TrimSpace c) ≠ .error DbErr.ErrNoRows) ∧
        db.QueryRow (queryText config) (TrimSpace code) = .error DbErr.ErrNoRows ∧
        lookupCodes w inputCodes config =
          (.error "database query error: sql: no rows in result set",
            Event.Open "sqlite3" config.DBPath ::
              (before ++ [code]).map
                (fun c => Event.QueryRow (queryText config) (TrimSpace c))
              ++ [Event.Close])) := by
  rcases lookupCodes_trace_cases w config db hopen inputCodes with ⟨heq, hall⟩ | hex
  · constructor
    · constructor
      · rintro ⟨err, he⟩
        rw [heq] at he
        cases he
      · rintro ⟨code, hm, hc⟩
        exact absurd hc (hall code hm)
    · rintro ⟨code, hm, hc⟩
      exact absurd hc (hall code hm)
  · obtain ⟨before, code, after, he, hb, hc, heq⟩ := hex
    constructor
    · constructor
      · intro _
        exact ⟨code, by simp [he], hc⟩
      · intro _
        exact ⟨_, by rw [heq]⟩
    · intro _
      exact ⟨before, code, after, he, hb, hc, heq⟩

theorem lookupCodes_error_iff_witness :
    (demoWorld "").sqlOpen demoConfig.DBPath = .ok demoDB ∧
    (∃ code ∈ ["101", "999", "202"],
      demoDB.QueryRow (queryText demoConfig) (TrimSpace code) = .error DbErr.ErrNoRows) ∧
    ∃ err, (lookupCodes (demoWorld "") ["101", "999", "202"] demoConfig).1 = .error err :=
  ⟨rfl, ⟨"999", by decide, rfl⟩,
    (lookupCodes_error_iff (demoWorld "") demoConfig demoDB rfl ["101", "999", "202"]).1.mpr
      ⟨"999", by decide, rfl⟩⟩

/-- C3: what the code does where the claim asks for the sentinel: a code without
a matching row aborts the batch with an error, and a driver error is recorded
as "Not found" while the batch goes on. -/
theorem lookupCodes_unmatched_aborts :
    lookupCodes (demoWorld "") ["999"] demoConfig =
      (.error "database query error: sql: no rows in result set",
        [Event.Open "sqlite3" "codes.db",
          Event.QueryRow "SELECT name FROM codes WHERE code = ?" "999", Event.Close]) ∧
    (lookupCodes (demoWorld "") ["101", "999", "202"] demoConfig).1 ≠
      .ok ["Alpha", "Not found", "Beta"] ∧
    (lookupCodes (demoWorld "") ["101", "303", "202"] demoConfig).1 =
      .ok ["Alpha", "Not found", "Beta"] := by
  refine ⟨rfl, ?_, rfl⟩
  intro h
  cases h

/-- C4: when `lookupCodes` returns without error, the connection was open, the
result slice has one entry per code, entry `i` is the scanned value when the
query for the trimmed code `i` returned a row and "Not found" when it failed
with an error other than `sql.ErrNoRows`, and the database saw exactly one query
per code, in input order. -/
theorem lookupCodes_ok_aligned (w : World) (config : Config) (cs rs : List String)
    (h : (lookupCodes w cs config).1 = .ok rs) :
    ∃ db, w.sqlOpen config.DBPath = .ok db ∧
      rs.length = cs.length ∧
      (∀ (i : Nat) (hc : i < cs.length) (hr : i < rs.length),
        (∀ v, db.QueryRow (queryText config) (TrimSpace cs[i]) = .ok v → rs[i] = v) ∧
        (∀ e, db.QueryRow (queryText config) (TrimSpace cs[i]) = .error e →
          e ≠ DbErr.ErrNoRows ∧ rs[i] = "Not found")) ∧
      (lookupCodes w cs config).2 =
        Event.Open "sqlite3" config.DBPath ::
          cs.map (fun c => Event.QueryRow (queryText config) (TrimSpace c))
          ++ [Event.Close] := by
  cases hopen : w.sqlOpen config.DBPath with
  | error err =>
    simp [lookupCodes, hopen] at h
  | ok db =>
    refine ⟨db, rfl, ?_⟩
    rcases lookupCodes_trace_cases w config db hopen cs with ⟨heq, hall⟩ | hex
    · rw [heq] at h
      have hrs : rs = cs.map (resultFor db (queryText config)) := by
        injection h with h
        exact h.symm
      subst hrs
      refine ⟨by simp, ?_, by rw [heq]⟩
      intro i hc hr
      constructor
      · intro v hv
        simp [resultFor, hv]
      · intro e he
        refine ⟨?_, by simp [resultFor, he]⟩
        intro hee
        apply hall cs[i] (List.getElem_mem hc)
        rw [he, hee]
    · obtain ⟨before, code, after, _, _, _, heq⟩ := hex
      rw [heq] at h
      cases h

theorem lookupCodes_ok_aligned_witness :
    (lookupCodes (demoWorld "") ["101", " 303", "202 "] demoConfig).1
      = .ok ["Alpha", "Not found", "Beta"] ∧
    (lookupCodes (demoWorld "") ["101", " 303", "202 "] demoConfig).2 =
      Event.Open "sqlite3" demoConfig.DBPath ::
        ["101", " 303", "202 "].map
          (fun c => Event.QueryRow (queryText demoConfig) (TrimSpace c))
        ++ [Event.Close] :=
  ⟨rfl,
    (lookupCodes_ok_aligned (demoWorld "") demoConfig ["101", " 303", "202 "]
      ["Alpha", "Not found", "Beta"] rfl).elim (fun _ hdb => hdb.2.2.2)⟩

/-- C9: every query `lookupCodes` issues has the text
"SELECT " + OutputColumn + " FROM " + TableName + " WHERE " + InputColumn + " = ?",
and its one bound argument is the trimmed value of one of the codes; so any two
queries of two runs with the same configuration, whatever their code lists and
databases, have the same text. -/
theorem lookupCodes_query_text (w : World) (config : Config) (inputCodes : List String) :
    (∀ query arg, Event.QueryRow query arg ∈ (lookupCodes w inputCodes config).2 →
      query = "SELECT " ++ config.OutputColumn ++ " FROM " ++ config.TableName ++
        " WHERE " ++ config.InputColumn ++ " = ?" ∧
      ∃ code ∈ inputCodes, arg = TrimSpace code) ∧
    ∀ (w2 : World) (codes2 : List String) (q1 a1 q2 a2 : String),
      Event.QueryRow q1 a1 ∈ (lookupCodes w inputCodes config).2 →
      Event.QueryRow q2 a2 ∈ (lookupCodes w2 codes2 config).2 → q1 = q2 := by
  have key : ∀ (w : World) (codes : List String) (query arg : String),
      Event.QueryRow query arg ∈ (lookupCodes w codes config).2 →
        query = queryText config ∧ ∃ code ∈ codes, arg = TrimSpace code := by
    intro w codes query arg hm
    cases hopen : w.sqlOpen config.DBPath with
    | error err => simp [lookupCodes, hopen] at hm
    | ok db =>
      rcases lookupCodes_trace_cases w config db hopen codes with ⟨heq, _⟩ | hex
      · rw [heq] at hm
        obtain ⟨c, hc, he⟩ := List.mem_map.mp (queryRow_mem_framed _ _ _ _ hm)
        injection he with h1 h2
        exact ⟨h1.symm, c, hc, h2.symm⟩
      · obtain ⟨before, code, after, hdec, _, _, heq⟩ := hex
        rw [heq] at hm
        obtain ⟨c, hc, he⟩ := List.mem_map.mp (queryRow_mem_framed _ _ _ _ hm)
        injection he with h1 h2
        refine ⟨h1.symm, c, ?_, h2.symm⟩
        rw [hdec]
        rcases List.mem_append.mp hc with hc | hc
        · exact List.mem_append_left _ hc
        · rw [List.mem_singleton.mp hc]
          exact List.mem_append_right _ (List.mem_cons_self _ _)
  constructor
  · intro query arg hm
    exact key w inputCodes query arg hm
  · intro w2 codes2 q1 a1 q2 a2 h1 h2
    rw [(key w inputCodes q1 a1 h1).1, (key w2 codes2 q2 a2 h2).1]

/-! ## C5, C8, C10: the whole run -/

/-- C5: with the clipboard holding "101\n\n202\n" and a database whose query
answers "Alpha" for 101 and "Beta" for 202, the parsed codes are ["101","202"],
`lookupCodes` returns ["Alpha","Beta"] without error, and the run ends with the
clipboard holding exactly "Alpha\nBeta", written once after the lookup. -/
theorem scenario_alpha_beta (w : World) (config : Config) (db : DB)
    (hcfg : (loadConfig w).1 = .ok config) (hinit : w.clipboardInit = none)
    (hclip : w.clipboard = "101\n\n202\n")
    (hopen : w.sqlOpen config.DBPath = .ok db)
    (h101 : db.QueryRow (queryText config) "101" = .ok "Alpha")
    (h202 : db.QueryRow (queryText config) "202" = .ok "Beta") :
    parseCodes w.clipboard = ["101", "202"] ∧
    (lookupCodes w ["101", "202"] config).1 = .ok ["Alpha", "Beta"] ∧
    (main w).outcome = .copied "Alpha\nBeta" ∧
    (main w).clipboard = "Alpha\nBeta" ∧
    (main w).trace =
      [Event.Open "sqlite3" config.DBPath,
        Event.QueryRow (queryText config) "101",
        Event.QueryRow (queryText config) "202",
        Event.Close,
        Event.ClipboardWrite "Alpha\nBeta"] := by
  have hp : parseCodes w.clipboard = ["101", "202"] := by
    rw [hclip]
    decide
  have t1 : TrimSpace "101" = "101" := by decide
  have t2 : TrimSpace "202" = "202" := by decide
  have hl : lookupCodes w ["101", "202"] config =
      (.ok ["Alpha", "Beta"],
        [Event.Open "sqlite3" config.DBPath,
          Event.QueryRow (queryText config) "101",
          Event.QueryRow (queryText config) "202",
          Event.Close]) := by
    simp [lookupCodes, hopen, lookupLoop, t1, t2, h101, h202]
  have hj : Join ["Alpha", "Beta"] = "Alpha\nBeta" := by decide
  have hne : w.clipboard ≠ "" := by
    rw [hclip]
    decide
  have hm := main_after_startup w config hcfg hinit
  rw [if_neg hne, hp] at hm
  simp only [hl, hj] at hm
  refine ⟨hp, by rw [hl], ?_, ?_, ?_⟩ <;> rw [hm] <;> simp

theorem scenario_alpha_beta_witness :
    (main (demoWorld "101\n\n202\n")).outcome = .copied "Alpha\nBeta" ∧
    (main (demoWorld "101\n\n202\n")).clipboard = "Alpha\nBeta" :=
  have h := scenario_alpha_beta (demoWorld "101\n\n202\n") demoConfig demoDB
    rfl rfl rfl rfl rfl rfl
  ⟨h.2.2.1, h.2.2.2.1⟩

/-- C8: after start-up, when the clipboard text is empty, or has no non-blank
line, the run ends without calling `lookupCodes`, with no database or clipboard
event and the clipboard as it was; and when `lookupCodes` is called and returns
an error, the run ends with the clipboard as it was and no clipboard write among
its events. -/
theorem main_failure_keeps_clipboard (w : World) (config : Config)
    (hcfg : (loadConfig w).1 = .ok config) (hinit : w.clipboardInit = none) :
    (w.clipboard = "" → main w = ⟨.noContent, w.clipboard, [], none⟩) ∧
    (w.clipboard ≠ "" → (∀ line ∈ Split w.clipboard, isBlank line = true) →
      main w = ⟨.noCodes, w.clipboard, [], none⟩) ∧
    (∀ cs err, (main w).lookedUp = some cs → (lookupCodes w cs config).1 = .error err →
      (main w).outcome = .lookupFailed err ∧
      (main w).clipboard = w.clipboard ∧
      (main w).trace = (lookupCodes w cs config).2 ∧
      ∀ text, Event.ClipboardWrite text ∉ (main w).trace) := by
  have hm := main_after_startup w config hcfg hinit
  refine ⟨?_, ?_, ?_⟩
  · intro h
    rw [hm, if_pos h]
  · intro h hb
    have hp : parseCodes w.clipboard = [] := by
      rw [parseCodes_eq, nonBlankTrimmedLines]
      have : (Split w.clipboard).filter (fun line => !isBlank line) = [] := by
        rw [List.filter_eq_nil_iff]
        intro line hl
        simp [hb line hl]
      rw [this]
      rfl
    rw [hm, if_neg h, hp]
    rfl
  · intro cs err hlk herr
    obtain ⟨config2, hcfg2, _, h1, hcs, hne⟩ := main_lookedUp w cs hlk
    have h2 : ¬ (parseCodes w.clipboard).length = 0 := by
      intro h0
      apply hne
      rw [hcs]
      exact List.length_eq_zero.mp h0
    rw [if_neg h1, if_neg h2, ← hcs] at hm
    simp only [herr] at hm
    rw [hm]
    refine ⟨rfl, rfl, rfl, ?_⟩
    intro text
    exact lookupCodes_no_clipboardWrite w config cs text

theorem main_failure_keeps_clipboard_witness :
    (loadConfig (demoWorld "101\n999\n202")).1 = .ok demoConfig ∧
    (demoWorld "101\n999\n202").clipboardInit = none ∧
    (main (demoWorld "101\n999\n202")).lookedUp = some ["101", "999", "202"] ∧
    (lookupCodes (demoWorld "101\n999\n202") ["101", "999", "202"] demoConfig).1 =
      .error "database query error: sql: no rows in result set" ∧
    (main (demoWorld "101\n999\n202")).clipboard = "101\n999\n202" :=
  ⟨rfl, rfl, by decide, rfl,
    ((main_failure_keeps_clipboard (demoWorld "101\n999\n202") demoConfig rfl rfl).2.2
      ["101", "999", "202"] "database query error: sql: no rows in result set"
      (by decide) rfl).2.1⟩

/-- C10: no run of `main` ends in the "No results found" branch: `lookupCodes`
is only ever called with a non-empty code list, and when that call succeeds the
result slice has one entry per code, so it is non-empty and the run ends with
the joined results written to the clipboard. -/
theorem main_noResults_unreachable (w : World) :
    (main w).outcome ≠ .noResults ∧
    (∀ cs, (main w).lookedUp = some cs → cs ≠ []) ∧
    ∀ config cs rs, (loadConfig w).1 = .ok config → (main w).lookedUp = some cs →
      (lookupCodes w cs config).1 = .ok rs →
      rs.length = cs.length ∧ rs ≠ [] ∧
      (main w).outcome = .copied (Join rs) ∧
      (main w).clipboard = Join rs ∧
      (main w).trace = (lookupCodes w cs config).2 ++ [Event.ClipboardWrite (Join rs)] := by
  have key : ∀ config cs rs, (loadConfig w).1 = .ok config → (main w).lookedUp = some cs →
      (lookupCodes w cs config).1 = .ok rs →
      rs.length = cs.length ∧ rs ≠ [] ∧
      (main w).outcome = .copied (Join rs) ∧
      (main w).clipboard = Join rs ∧
      (main w).trace = (lookupCodes w cs config).2 ++ [Event.ClipboardWrite (Join rs)] := by
    intro config cs rs hcfg hlk hok
    obtain ⟨config2, hcfg2, hinit, h1, hcs, hne⟩ := main_lookedUp w cs hlk
    obtain ⟨db, _, hrs⟩ := lookupCodes_ok_eq w config cs rs hok
    have hlen : rs.length = cs.length := by rw [hrs]; simp
    have hpos : rs.length > 0 := by
      rw [hlen]
      exact List.length_pos.mpr hne
    have h2 : ¬ (parseCodes w.clipboard).length = 0 := by
      intro h0
      apply hne
      rw [hcs]
      exact List.length_eq_zero.mp h0
    have hm := main_after_startup w config hcfg hinit
    rw [if_neg h1, if_neg h2, ← hcs] at hm
    simp only [hok, hpos, if_true] at hm
    refine ⟨hlen, List.length_pos.mp hpos, ?_, ?_, ?_⟩ <;> rw [hm]
  refine ⟨?_, fun cs hlk => (main_lookedUp w cs hlk).elim (fun _ h => h.2.2.2.2), key⟩
  intro hout
  cases hcfg : (loadConfig w).1 with
  | error err => simp [main, hcfg] at hout
  | ok config =>
    cases hinit : w.clipboardInit with
    | some err => simp [main, hcfg, hinit] at hout
    | none =>
      have hm := main_after_startup w config hcfg hinit
      by_cases h1 : w.clipboard = ""
      · rw [if_pos h1] at hm
        rw [hm] at hout
        cases hout
      · by_cases h2 : (parseCodes w.clipboard).length = 0
        · rw [if_neg h1, if_pos h2] at hm
          rw [hm] at hout
          cases hout
        · rw [if_neg h1, if_neg h2] at hm
          cases hlr : (lookupCodes w (parseCodes w.clipboard) config).1 with
          | error err =>
            simp only [hlr] at hm
            rw [hm] at hout
            cases hout
          | ok rs =>
            have hlk : (main w).lookedUp = some (parseCodes w.clipboard) := by
              rw [hm]
              simp only [hlr]
              split <;> rfl
            have := (key config _ rs hcfg hlk hlr).2.2.1
            rw [this] at hout
            cases hout

theorem main_noResults_unreachable_witness :
    (main (demoWorld "101\n303")).lookedUp = some ["101", "303"] ∧
    (main (demoWorld "101\n303")).clipboard = Join ["Alpha", "Not found"] :=
  ⟨by decide,
    ((main_noResults_unreachable (demoWorld "101\n303")).2.2 demoConfig ["101", "303"]
      ["Alpha", "Not found"] rfl (by decide) rfl).2.2.2.1⟩

/-! ## C6, C7: configuration loading -/

/-- C6: when at least one of the four settings reads as empty after the `.env`
file was loaded, `loadConfig` returns an error and no `Config`; the message is
that of the first empty setting in the order DB_PATH, TABLE_NAME, INPUT_COLUMN,
OUTPUT_COLUMN, and it mentions no other setting. -/
theorem loadConfig_missing (w : World)
    (h : ∃ name ∈ settingNames, (w.godotenvLoad w.environ).1 name = "") :
    ∃ name, firstMissing (w.godotenvLoad w.environ).1 = some name ∧
      (loadConfig w).1 = .error (name ++ " is required in .env") ∧
      ∀ other ∈ settingNames,
        (mentions (name ++ " is required in .env") other ↔ other = name) := by
  obtain ⟨n, hn, he⟩ := h
  simp only [settingNames, List.mem_cons, List.mem_singleton, List.not_mem_nil, or_false] at hn
  by_cases h1 : (w.godotenvLoad w.environ).1 "DB_PATH" = ""
  · refine ⟨"DB_PATH", ?_, ?_, ?_⟩
    · simp [firstMissing, settingNames, h1]
    · simp [loadConfig, h1]
    · simp only [mentions]; decide
  by_cases h2 : (w.godotenvLoad w.environ).1 "TABLE_NAME" = ""
  · refine ⟨"TABLE_NAME", ?_, ?_, ?_⟩
    · simp [firstMissing, settingNames, h1, h2]
    · simp [loadConfig, h1, h2]
    · simp only [mentions]; decide
  by_cases h3 : (w.godotenvLoad w.environ).1 "INPUT_COLUMN" = ""
  · refine ⟨"INPUT_COLUMN", ?_, ?_, ?_⟩
    · simp [firstMissing, settingNames, h1, h2, h3]
    · simp [loadConfig, h1, h2, h3]
    · simp only [mentions]; decide
  by_cases h4 : (w.godotenvLoad w.environ).1 "OUTPUT_COLUMN" = ""
  · refine ⟨"OUTPUT_COLUMN", ?_, ?_, ?_⟩
    · simp [firstMissing, settingNames, h1, h2, h3, h4]
    · simp [loadConfig, h1, h2, h3, h4]
    · simp only [mentions]; decide
  exfalso
  rcases hn with rfl | rfl | rfl | rfl
  · exact h1 he
  · exact h2 he
  · exact h3 he
  · exact h4 he

theorem loadConfig_missing_witness :
    (loadConfig noTableWorld).1 = .error "TABLE_NAME is required in .env" ∧
    ∃ name, firstMissing (noTableWorld.godotenvLoad noTableWorld.environ).1 = some name ∧
      (loadConfig noTableWorld).1 = .error (name ++ " is required in .env") ∧
      ∀ other ∈ settingNames,
        (mentions (name ++ " is required in .env") other ↔ other = name) :=
  ⟨by rfl, loadConfig_missing noTableWorld ⟨"TABLE_NAME", by decide, by decide⟩⟩

/-- C7: when the four settings all read as non-empty after the `.env` file was
loaded, `loadConfig` succeeds and the `Config` holds the four values as read,
unchanged; the error `godotenv.Load` may have returned plays no part in the
result. -/
theorem loadConfig_ok (w : World)
    (h : ∀ name ∈ settingNames, (w.godotenvLoad w.environ).1 name ≠ "") :
    (loadConfig w).1 = .ok
      { DBPath := (w.godotenvLoad w.environ).1 "DB_PATH"
        TableName := (w.godotenvLoad w.environ).1 "TABLE_NAME"
        InputColumn := (w.godotenvLoad w.environ).1 "INPUT_COLUMN"
        OutputColumn := (w.godotenvLoad w.environ).1 "OUTPUT_COLUMN" } ∧
    ∀ err : Option String,
      (loadConfig { w with godotenvLoad := fun env => ((w.godotenvLoad env).1, err) }).1
        = (loadConfig w).1 := by
  have h1 := h "DB_PATH" (by simp [settingNames])
  have h2 := h "TABLE_NAME" (by simp [settingNames])
  have h3 := h "INPUT_COLUMN" (by simp [settingNames])
  have h4 := h "OUTPUT_COLUMN" (by simp [settingNames])
  constructor
  · simp [loadConfig, h1, h2, h3, h4]
  · intro err
    simp [loadConfig, h1, h2, h3, h4]

theorem loadConfig_ok_witness :
    (demoWorld "").godotenvLoad (demoWorld "").environ
      = (demoEnv, some "open .env: no such file or directory") ∧
    (loadConfig (demoWorld "")).1 = .ok
      { DBPath := "codes.db", TableName := "codes", InputColumn := "code",
        OutputColumn := "name" } :=
  ⟨rfl, (loadConfig_ok (demoWorld "") (by decide)).1⟩

end CidFiller
